import Mathlib

/-!
Verification of the parsing / valuation / session core of the
eve-mission-ness tracker.  JavaScript source files are shallowly embedded:
strings are `List Char`, JS numbers are `ℚ` (with `Option` used where a value
can be `NaN` or `null`), JS objects/Maps are association lists, and the
stateful modules (mission tracker, market API) are explicit state-passing
functions.  `Math.random()` is modelled as an explicit input, and network
fetches as oracle functions carried in an environment record.
-/

set_option autoImplicit false

namespace Js

/-- ASCII fragment of the JavaScript `\s` whitespace class. -/
def isJsSpace (c : Char) : Bool :=
  c == ' ' || c == '\t' || c == '\n' || c == '\r' || c == '\x0b' || c == '\x0c'

/-- `String.prototype.toLowerCase`, per character (ASCII). -/
def toLowerL (l : List Char) : List Char := l.map Char.toLower

/-- `String.prototype.trim` on the ASCII whitespace class. -/
def trimL (l : List Char) : List Char :=
  ((l.dropWhile isJsSpace).reverse.dropWhile isJsSpace).reverse

/-- Does `sub` start the list `hay`? -/
def leadMatch : List Char → List Char → Bool
  | [], _ => true
  | _ :: _, [] => false
  | a :: as, b :: bs => a == b && leadMatch as bs

/-- Does `sub` occur contiguously inside `hay`?  (`String.prototype.includes`.) -/
def containsSeq : List Char → List Char → Bool
  | [], sub => sub.isEmpty
  | c :: t, sub => leadMatch sub (c :: t) || containsSeq t sub

/-- `hay.includes(sub)`. -/
def jsIncludes (hay sub : List Char) : Bool := containsSeq hay sub

/-- `String.prototype.split` against a single-character class given by `p`. -/
def splitOnPred (p : Char → Bool) : List Char → List (List Char)
  | [] => [[]]
  | c :: cs =>
    let r := splitOnPred p cs
    if p c then [] :: r
    else
      match r with
      | [] => [[c]]
      | h :: t => (c :: h) :: t

/-- `s.split(sep)` for a one-character separator. -/
def splitOnChar (sep : Char) (l : List Char) : List (List Char) :=
  splitOnPred (· == sep) l

/-- Decimal digit run to a natural number. -/
def digitsToNat (l : List Char) : ℕ :=
  l.foldl (fun n c => 10 * n + (c.toNat - 48)) 0

def isHexDigit (c : Char) : Bool :=
  c.isDigit || ('a' ≤ c && c ≤ 'f') || ('A' ≤ c && c ≤ 'F')

def hexDigitsToNat (l : List Char) : ℕ :=
  l.foldl (fun n c =>
    16 * n + (if c.isDigit then c.toNat - 48 else (Char.toLower c).toNat - 87)) 0

/-- Exponent suffix of the JS float grammar (`e`/`E` already consumed). -/
def applyExp (mant : ℚ) (t : List Char) : ℚ :=
  let (esgn, t1) : Bool × List Char :=
    match t with
    | '-' :: r => (true, r)
    | '+' :: r => (false, r)
    | _ => (false, t)
  let ds := t1.takeWhile Char.isDigit
  if ds.isEmpty then mant
  else if esgn then mant / (10 : ℚ) ^ digitsToNat ds
  else mant * (10 : ℚ) ^ digitsToNat ds

/-- JavaScript `parseFloat`: skip leading whitespace, optional sign, longest
numeric prefix `digits [. digits] [e[±]digits]`; `none` models `NaN`. -/
def parseFloatJs (l : List Char) : Option ℚ :=
  let l1 := l.dropWhile isJsSpace
  let (sgn, l2) : ℚ × List Char :=
    match l1 with
    | '-' :: t => (-1, t)
    | '+' :: t => (1, t)
    | _ => (1, l1)
  let ip := l2.takeWhile Char.isDigit
  let l3 := l2.dropWhile Char.isDigit
  let (fp, l4) : List Char × List Char :=
    match l3 with
    | '.' :: t => (t.takeWhile Char.isDigit, t.dropWhile Char.isDigit)
    | _ => ([], l3)
  if ip.isEmpty && fp.isEmpty then none
  else
    let mant : ℚ := (digitsToNat ip : ℚ) + (digitsToNat fp : ℚ) / (10 : ℚ) ^ fp.length
    let value : ℚ :=
      match l4 with
      | 'e' :: t => applyExp mant t
      | 'E' :: t => applyExp mant t
      | _ => mant
    some (sgn * value)

/-- JavaScript `parseInt` with no radix argument (decimal, `0x` hex prefix);
`none` models `NaN`. -/
def parseIntJs (l : List Char) : Option ℤ :=
  let l1 := l.dropWhile isJsSpace
  let (neg, l2) : Bool × List Char :=
    match l1 with
    | '-' :: t => (true, t)
    | '+' :: t => (false, t)
    | _ => (false, l1)
  match l2 with
  | '0' :: 'x' :: t =>
    let ds := t.takeWhile isHexDigit
    if ds.isEmpty then none
    else some ((if neg then -1 else 1) * (hexDigitsToNat ds : ℤ))
  | '0' :: 'X' :: t =>
    let ds := t.takeWhile isHexDigit
    if ds.isEmpty then none
    else some ((if neg then -1 else 1) * (hexDigitsToNat ds : ℤ))
  | _ =>
    let ds := l2.takeWhile Char.isDigit
    if ds.isEmpty then none
    else some ((if neg then -1 else 1) * (digitsToNat ds : ℤ))

/-- `a || b` on an integer-valued JS expression (`none` = `NaN`, `0` falsy). -/
def jsOrZ (a : Option ℤ) (b : Option ℤ) : Option ℤ :=
  match a with
  | none => b
  | some 0 => b
  | some n => some n

/-- `Math.round(x * 100) / 100` — round to two decimals, half toward `+∞`. -/
def round2 (x : ℚ) : ℚ := (Int.floor (x * 100 + 1 / 2) : ℚ) / 100

end Js

namespace TransactionParser

/-- Transaction categories returned by `determineTransactionType`
(`src/js/transaction-parser.js`). -/
inductive TxType where
  | bounty
  | mission
  | market
  | insurance
  | other
deriving DecidableEq, Repr

/-- `parseAmount` of `src/js/transaction-parser.js`: strip commas and
whitespace, then `parseFloat(...) || 0`. -/
def parseAmount (amountStr : List Char) : ℚ :=
  let cleanAmount := amountStr.filter (fun c => !(c == ',' || Js.isJsSpace c))
  (Js.parseFloatJs cleanAmount).getD 0

/-- `parseDate`: split on `.`/`/`/`-`; three parts give `YYYY-MM-DD` with
zero-padded month/day, otherwise fall back to `today` (the current date). -/
def pad2 (l : List Char) : List Char :=
  if l.length ≥ 2 then l else List.replicate (2 - l.length) '0' ++ l

def parseDate (today dateStr : List Char) : List Char :=
  let parts := Js.splitOnPred (fun c => c == '.' || c == '/' || c == '-') dateStr
  match parts with
  | [year, month, day] => year ++ ['-'] ++ pad2 month ++ ['-'] ++ pad2 day
  | _ => today

/-- `determineTransactionType`: keyword priority over the lower-cased
description. -/
def determineTransactionType (description _fromTo : List Char) : TxType :=
  let lowerDesc := Js.toLowerL description
  if Js.jsIncludes lowerDesc "bounty".data then .bounty
  else if Js.jsIncludes lowerDesc "mission".data || Js.jsIncludes lowerDesc "agent".data
      || Js.jsIncludes lowerDesc "reward".data then .mission
  else if Js.jsIncludes lowerDesc "market".data || Js.jsIncludes lowerDesc "transaction".data
      || Js.jsIncludes lowerDesc "sell".data || Js.jsIncludes lowerDesc "buy".data then .market
  else if Js.jsIncludes lowerDesc "insurance".data then .insurance
  else .other

/-- `determineIsIncome`: income keywords first, then expense keywords,
default income. -/
def determineIsIncome (description _fromTo : List Char) : Bool :=
  let lowerDesc := Js.toLowerL description
  if Js.jsIncludes lowerDesc "mission".data || Js.jsIncludes lowerDesc "agent".data
      || Js.jsIncludes lowerDesc "bounty".data || Js.jsIncludes lowerDesc "reward".data then
    true
  else if Js.jsIncludes lowerDesc "purchased".data || Js.jsIncludes lowerDesc "buy".data
      || Js.jsIncludes lowerDesc "fee".data || Js.jsIncludes lowerDesc "tax".data then
    false
  else
    true

/-- `shouldAutoSelect`: bounty and mission transactions are pre-selected. -/
def shouldAutoSelect (type' : TxType) (_description : List Char) : Bool :=
  match type' with
  | .bounty => true
  | .mission => true
  | _ => false

/-- `isHeaderLine`: at least two of the header keywords occur
case-insensitively. -/
def isHeaderLine (line : List Char) : Bool :=
  if line.isEmpty then false
  else
    let lowercaseLine := Js.toLowerL line
    (["date".data, "amount".data, "type".data, "description".data, "transaction".data].filter
      (fun keyword => Js.jsIncludes lowercaseLine keyword)).length ≥ 2

/-- The four capture groups a line-grammar match produces
(date, amount, from/to, description). -/
structure Fields where
  dateStr : List Char
  amountStr : List Char
  fromTo : List Char
  description : List Char

/-- The parsed-transaction record built by `parseLine` after a successful
pattern match.  `rid` stands for the `Math.random()` id suffix. -/
structure Tx where
  id : List Char
  date : List Char
  amount : ℚ
  description : List Char
  fromTo : List Char
  txType : TxType
  isSelected : Bool
deriving DecidableEq

/-- The transaction object literal at the end of `parseLine`. -/
def mkTransaction (rid today : List Char) (f : Fields) : Tx :=
  let date := parseDate today f.dateStr
  let amount := parseAmount f.amountStr
  let fromTo := Js.trimL f.fromTo
  let description := Js.trimL f.description
  let type' := determineTransactionType description fromTo
  let isIncome := determineIsIncome description fromTo
  { id := "tx-".data ++ date ++ "-".data ++ rid
    date := date
    amount := if isIncome then |amount| else -|amount|
    description := description
    fromTo := fromTo
    txType := type'
    isSelected := shouldAutoSelect type' description }

/-- `parse(text)`.  The regex matching of `parseLine` (pattern1/pattern2) is
abstracted as the `matcher` argument, which returns the capture groups of the
first pattern that matches, or `none`; everything downstream of the match is
embedded concretely. -/
def parse (matcher : List Char → Option Fields) (rid today : List Char)
    (text : List Char) : List Tx :=
  if text.isEmpty then []
  else
    let lines := Js.splitOnChar '\n' text
    let startLine := if isHeaderLine (lines.headD []) then 1 else 0
    (((lines.drop startLine).map Js.trimL).filter (fun l => !l.isEmpty)).filterMap
      (fun line => (matcher line).map (mkTransaction rid today))

end TransactionParser

namespace TransactionParserV2

/-- `parseAmount` of the newer transaction-parser iteration
(`src/unnamed/part_001`): strip whitespace; if the string contains a comma,
drop all periods (thousands separators) and turn the comma into the decimal
point, otherwise drop all periods; finally drop stray commas and
`parseFloat(...) || 0`. -/
def parseAmount (amountStr : List Char) : ℚ :=
  let c1 := amountStr.filter (fun c => !Js.isJsSpace c)
  let c2 :=
    if c1.contains ',' then
      (c1.filter (fun c => !(c == '.'))).map (fun c => if c == ',' then '.' else c)
    else
      c1.filter (fun c => !(c == '.'))
  let c3 := c2.filter (fun c => !(c == ','))
  (Js.parseFloatJs c3).getD 0

end TransactionParserV2

/-- Amount parsing as the specification words it: if the raw amount string
contains a comma, periods are thousands separators and the comma is the
decimal point; otherwise periods are stripped as thousands separators
(whitespace removed as in the source). -/
def specAmountRule (amountStr : List Char) : ℚ :=
  let s := amountStr.filter (fun c => !Js.isJsSpace c)
  let t :=
    if s.contains ',' then
      (s.filter (fun c => !(c == '.'))).map (fun c => if c == ',' then '.' else c)
    else
      s.filter (fun c => !(c == '.'))
  (Js.parseFloatJs t).getD 0

namespace Parser

/-- Insertion-ordered string→quantity map mirroring a JavaScript `Map`
(`set` replaces in place, else appends). -/
def JMap := List (List Char × ℕ)

instance : DecidableEq JMap := inferInstanceAs (DecidableEq (List (List Char × ℕ)))

/-- `Map.prototype.set`. -/
def mapSet (k : List Char) (v : ℕ) : JMap → JMap
  | [] => [(k, v)]
  | (k', v') :: t => if k' = k then (k, v) :: t else (k', v') :: mapSet k v t

/-- `Map.prototype.get` (`none` = `undefined`). -/
def mapGet (k : List Char) : JMap → Option ℕ
  | [] => none
  | (k', v') :: t => if k' = k then some v' else mapGet k t

/-- Result of `parseFitting` (`src/js/parser.js`): `{ shipType, items }`. -/
structure FittingResult where
  shipType : List Char
  items : JMap
deriving DecidableEq

/-- `extractShipType`: the regex `/^\[([^,]+),/` — an opening bracket, a
non-empty comma-free run, then a comma; the captured run is trimmed. -/
def extractShipType (headerLine : List Char) : List Char :=
  match headerLine with
  | '[' :: rest =>
    let nm := rest.takeWhile (fun c => !(c == ','))
    if nm.isEmpty then []
    else
      match rest.drop nm.length with
      | ',' :: _ => Js.trimL nm
      | _ => []
  | _ => []

/-- `parseItemLine`: the anchored regex `/^(.+?)\s+x(\d+)$/` — a trailing
digit run preceded by `x` preceded by whitespace preceded by a non-empty
name — else the whole trimmed line with quantity 1. -/
def parseItemLine (line : List Char) : List Char × ℕ :=
  let rev := line.reverse
  let ds := rev.takeWhile Char.isDigit
  let afterDigits := rev.dropWhile Char.isDigit
  match ds, afterDigits with
  | _ :: _, 'x' :: r2 =>
    let ws := r2.takeWhile Js.isJsSpace
    let r3 := r2.dropWhile Js.isJsSpace
    if ws.isEmpty || r3.isEmpty then (Js.trimL line, 1)
    else (Js.trimL r3.reverse, Js.digitsToNat ds.reverse)
  | _, _ => (Js.trimL line, 1)

/-- The accumulation step of the `parseFitting` loop body. -/
def accLine (items : JMap) (line : List Char) : JMap :=
  let e := parseItemLine line
  if e.1.isEmpty then items
  else mapSet e.1 ((mapGet e.1 items).getD 0 + e.2) items

/-- The trimmed, non-empty lines of the fitting text. -/
def fitLines (fittingText : List Char) : List (List Char) :=
  ((Js.splitOnChar '\n' fittingText).map Js.trimL).filter (fun l => !l.isEmpty)

/-- `parseFitting` (`src/js/parser.js`): hull from the bracketed first line,
modules accumulated by name, hull inserted with quantity 1 at the end. -/
def parseFitting (fittingText : List Char) : FittingResult :=
  if fittingText.isEmpty then ⟨[], []⟩
  else if (fitLines fittingText).isEmpty then ⟨[], []⟩
  else if (extractShipType ((fitLines fittingText).headD [])).isEmpty then
    ⟨extractShipType ((fitLines fittingText).headD []),
      ((fitLines fittingText).drop 1).foldl accLine []⟩
  else
    ⟨extractShipType ((fitLines fittingText).headD []),
      mapSet (extractShipType ((fitLines fittingText).headD [])) 1
        (((fitLines fittingText).drop 1).foldl accLine [])⟩

/-- The parsed `(name, quantity)` entries of the body lines that carry a
non-empty name — the lines the loop actually accumulates. -/
def bodyEntries (fittingText : List Char) : List (List Char × ℕ) :=
  (((fitLines fittingText).drop 1).map parseItemLine).filter (fun e => !e.1.isEmpty)

/-- Module quantity as the specification words it: the sum of the parsed
quantities of all body lines bearing that (non-empty) name, absent if no
such line exists. -/
def specModuleQty (fittingText : List Char) (n : List Char) : Option ℕ :=
  let es := bodyEntries fittingText
  if es.any (fun e => e.1 == n) then
    some (((es.filter (fun e => e.1 == n)).map (fun e => e.2)).sum)
  else none

end Parser

namespace InventoryParser

/-- `"name".split(' x')` — JS split with the two-character separator used by
the alternate `Name xN` encoding. -/
def splitOnSpaceX : List Char → List (List Char)
  | [] => [[]]
  | ' ' :: 'x' :: rest => [] :: splitOnSpaceX rest
  | c :: rest =>
    match splitOnSpaceX rest with
    | [] => [[c]]
    | h :: t => (c :: h) :: t

/-- `iskStr.replace(/ISK|,|\s/g, '')` — drop `ISK` substrings, commas and
whitespace, scanning left to right. -/
def stripIsk : List Char → List Char
  | 'I' :: 'S' :: 'K' :: rest => stripIsk rest
  | c :: rest => if c == ',' || Js.isJsSpace c then stripIsk rest else c :: stripIsk rest
  | [] => []

/-- `parseIskValue`. -/
def parseIskValue (iskStr : List Char) : ℚ :=
  if iskStr.isEmpty then 0
  else (Js.parseFloatJs (stripIsk iskStr)).getD 0

/-- The loop over `parts[2..]` looking for the first column containing
`ISK`. -/
def scanIsk : List (List Char) → ℚ
  | [] => 0
  | p :: ps => if Js.jsIncludes p "ISK".data then parseIskValue p else scanIsk ps

/-- A parsed inventory item (`src/js/inventory-parser.js` `parseLine`).
JS numbers that can be `NaN` are `Option`-valued; the random display `id`
is not modelled. -/
structure InvItem where
  name : List Char
  quantity : Option ℤ
  estimatedValue : ℚ
  totalValue : Option ℚ
  marketPrice : ℚ
deriving DecidableEq

/-- The quantity the second column yields: `parseInt(parts[1].replace(/,/g,
'')) || 1`. -/
def columnQty (parts : List (List Char)) : Option ℤ :=
  Js.jsOrZ (Js.parseIntJs ((parts.getD 1 []).filter (fun c => !(c == ',')))) (some 1)

/-- `parseLine` of the inventory parser, including the (unreachable)
`isNaN(quantity)` re-parse of a `Name xN` first column. -/
def parseLine (line : List Char) : Option InvItem :=
  let parts := Js.splitOnChar '\t' line
  if parts.length < 2 then none
  else
    let name := Js.trimL (parts.headD [])
    let quantity := columnQty parts
    let quantity :=
      if quantity.isNone && Js.jsIncludes name " x".data then
        let nameParts := splitOnSpaceX name
        if nameParts.length = 2 then
          match Js.parseIntJs (nameParts.getD 1 []) with
          | some k => some k
          | none => quantity
        else quantity
      else quantity
    let estimatedValue := if parts.length > 2 then scanIsk (parts.drop 2) else 0
    some
      { name := name
        quantity := quantity
        estimatedValue := estimatedValue
        totalValue := quantity.map (fun q => estimatedValue * (q : ℚ))
        marketPrice := 0 }

end InventoryParser

namespace MissionTracker

/-- The session-state errors of §7 (`AlreadyActive` on double start,
`NoActiveSession` on complete without start), thrown as `Error`s in
`src/unnamed/part_000`. -/
inductive SessionError where
  | alreadyActive
  | noActiveSession
deriving DecidableEq, Repr

/-- The `income` sub-object of a mission. -/
structure IncomeB where
  bounties : ℚ
  missionReward : ℚ
  timeBonus : ℚ
  lootValue : ℚ
deriving DecidableEq

/-- The `expenses` sub-object of a mission. -/
structure ExpensesB where
  ammo : ℚ
  repairs : ℚ
  other : ℚ
deriving DecidableEq

/-- An active/completed mission record.  `startMs` abstracts the epoch
value of `new Date(date + "T" + startTime)`; date strings themselves are
not re-modelled. -/
structure Mission where
  id : List Char
  startMs : ℚ
  notes : List Char
  income : IncomeB
  expenses : ExpensesB
  totalTimeMinutes : ℚ
  iskPerHour : ℚ
deriving DecidableEq

/-- Staged inventory item as seen by `getInventoryValue`;
`totalValue` may be absent (`item.totalValue || 0`). -/
structure StagedItem where
  totalValue : Option ℚ
deriving DecidableEq

/-- Module-level state of the `MissionTracker` IIFE: the in-memory active
mission, the durable `localStorage['active-mission']` slot, the staged
transactions/inventory, and whether the timer interval is running. -/
structure TrackerState where
  activeMission : Option Mission
  stored : Option Mission
  selectedTransactions : List TransactionParser.Tx
  inventoryItems : List StagedItem
  timerRunning : Bool
deriving DecidableEq

/-- The caller-supplied data of `startMission` (name/level/notes plus the
start timestamp abstraction). -/
structure MissionData where
  idSeed : List Char
  startMs : ℚ
  notes : List Char
deriving DecidableEq

/-- The finalization inputs `completeMission` reads from the completion
form: the three expense input strings (later `parseInt(...) || 0`) and the
final notes. -/
structure CompletionInputs where
  ammoStr : List Char
  repairsStr : List Char
  otherStr : List Char
  finalNotes : List Char
deriving DecidableEq

/-- `startMission`: rejected with `AlreadyActive` while a mission is
active; otherwise creates the zero-initialized mission, stores it in memory
and in the durable slot, and starts the timer. -/
def startMission (d : MissionData) (st : TrackerState) :
    Except SessionError Mission × TrackerState :=
  match st.activeMission with
  | some _ => (.error .alreadyActive, st)
  | none =>
    let mission : Mission :=
      { id := "mission-".data ++ d.idSeed
        startMs := d.startMs
        notes := d.notes
        income := ⟨0, 0, 0, 0⟩
        expenses := ⟨0, 0, 0⟩
        totalTimeMinutes := 0
        iskPerHour := 0 }
    (.ok mission,
      { st with
          activeMission := some mission
          stored := some mission
          timerRunning := true })

/-- `getSelectedTransactions`: fold the staged transactions into
`(bounties, timeBonus, missionReward)` totals. -/
def getSelectedTransactions (txs : List TransactionParser.Tx) : ℚ × ℚ × ℚ :=
  txs.foldl
    (fun acc tx =>
      match tx.txType with
      | .bounty => (acc.1 + tx.amount, acc.2.1, acc.2.2)
      | .mission =>
        if Js.jsIncludes (Js.toLowerL tx.description) "time bonus".data then
          (acc.1, acc.2.1 + tx.amount, acc.2.2)
        else
          (acc.1, acc.2.1, acc.2.2 + tx.amount)
      | _ => acc)
    (0, 0, 0)

/-- `getInventoryValue`: `reduce((total, item) => total + (item.totalValue
|| 0), 0)`. -/
def getInventoryValue (items : List StagedItem) : ℚ :=
  items.foldl (fun total item => total + (item.totalValue.getD 0)) 0

/-- Total income of a mission record (the four income fields). -/
def totalIncome (m : Mission) : ℚ :=
  m.income.bounties + m.income.missionReward + m.income.timeBonus + m.income.lootValue

/-- Total expenses of a mission record (the three expense fields). -/
def totalExpenses (m : Mission) : ℚ :=
  m.expenses.ammo + m.expenses.repairs + m.expenses.other

/-- `completeMission`: rejected with `NoActiveSession` when idle; otherwise
stops the timer, computes `totalTimeMinutes = Math.max(durationMs / 60000,
1)`, folds in staged totals and expense inputs, appends final notes, sets
`iskPerHour = profit / totalTimeMinutes * 60`, persists the record and
clears all session state.  `nowMs` abstracts the epoch value of the
reconstructed end date-time. -/
def completeMission (inp : CompletionInputs) (nowMs : ℚ) (st : TrackerState) :
    Except SessionError Mission × TrackerState :=
  match st.activeMission with
  | none => (.error .noActiveSession, st)
  | some m =>
    let durationMs := nowMs - m.startMs
    let ttm := max (durationMs / 60000) 1
    let td := getSelectedTransactions st.selectedTransactions
    let loot := getInventoryValue st.inventoryItems
    let expenses : ExpensesB :=
      { ammo := ((Js.jsOrZ (Js.parseIntJs inp.ammoStr) (some 0)).getD 0 : ℤ)
        repairs := ((Js.jsOrZ (Js.parseIntJs inp.repairsStr) (some 0)).getD 0 : ℤ)
        other := ((Js.jsOrZ (Js.parseIntJs inp.otherStr) (some 0)).getD 0 : ℤ) }
    let notes :=
      if inp.finalNotes.isEmpty then m.notes
      else if m.notes.isEmpty then inp.finalNotes
      else m.notes ++ "\n\n".data ++ inp.finalNotes
    let income : IncomeB :=
      { bounties := td.1, missionReward := td.2.2, timeBonus := td.2.1, lootValue := loot }
    let m' : Mission :=
      { m with
          income := income
          expenses := expenses
          notes := notes
          totalTimeMinutes := ttm
          iskPerHour :=
            (income.bounties + income.missionReward + income.timeBonus + income.lootValue
                - (expenses.ammo + expenses.repairs + expenses.other)) / ttm * 60 }
    (.ok m',
      { st with
          activeMission := none
          stored := none
          selectedTransactions := []
          inventoryItems := []
          timerRunning := false })

end MissionTracker

/-- A market order as returned by the ESI order-book endpoint; only the
fields the pricing code reads. -/
structure Order where
  price : ℚ
  volume_remain : ℤ
  location_id : ℕ
  is_buy_order : Bool
deriving DecidableEq

/-- The comparator `(a, b) => a.price - b.price` as an ordering relation. -/
def lePrice (a b : Order) : Prop := a.price ≤ b.price

instance : DecidableRel lePrice := fun a b => inferInstanceAs (Decidable (a.price ≤ b.price))

instance : IsTotal Order lePrice := ⟨fun a b => le_total a.price b.price⟩

instance : IsTrans Order lePrice := ⟨fun _ _ _ h h' => le_trans h h'⟩

/-- `orders.sort((a, b) => a.price - b.price)` — JS `Array.prototype.sort`
is stable, so it is the stable insertion sort by price. -/
def sortByPrice (orders : List Order) : List Order := List.insertionSort lePrice orders

/-- `Math.max(1, Math.ceil(n * 0.05))`. -/
def top5Count (n : ℕ) : ℕ := max 1 ⌈(n : ℚ) * (5 / 100)⌉₊

namespace MarketAPIv3

/-- `calculateTop5PercentAverage` (`src/unnamed/part_003`): sort ascending
by price, slice the cheapest `max(1, ceil(length * 0.05))`, average their
prices with `reduce`, round to 2 decimals. -/
def calculateTop5PercentAverage (orders : List Order) : ℚ :=
  Js.round2
    ((((sortByPrice orders).take (top5Count (sortByPrice orders).length)).foldl
        (fun sum order => sum + order.price) 0) /
      ((((sortByPrice orders).take (top5Count (sortByPrice orders).length)).length : ℚ)))

end MarketAPIv3

/-- The 5%-cheapest-average algorithm as the specification words it: sort
the candidates ascending by price, take the cheapest `ceil(count * 0.05)`
orders (minimum 1), and return the arithmetic mean of their prices rounded
to 2 decimal places. -/
def specTop5 (orders : List Order) : ℚ :=
  Js.round2 ((((sortByPrice orders).take (top5Count orders.length)).map
      (fun o => o.price)).sum / (top5Count orders.length : ℚ))

namespace ApiJs

/-- Jita IV - Moon 4 station id used by `getPrices` (`src/js/api.js`). -/
def JITA_4_4_STATION_ID : ℕ := 60003760

/-- The Jita-station sell orders retained at the hub stage of `getPrices`. -/
def jitaRetained (allOrders : List Order) : List Order :=
  allOrders.filter (fun order =>
    order.location_id = JITA_4_4_STATION_ID ∧ order.volume_remain > 0)

/-- The pure per-type price computation of `getPrices` once the region's
sell orders have been fetched (steps 2–5 plus the whole-region fallback);
`none` models the `{ typeId, price: null }` outcomes. -/
def getPricesSingle (allOrders : List Order) : Option ℚ :=
  if allOrders.isEmpty then none
  else if (jitaRetained allOrders).isEmpty then
    match sortByPrice (allOrders.filter (fun order => order.volume_remain > 0)) with
    | [] => none
    | cheapest :: _ => some cheapest.price
  else
    some (Js.round2
      ((((sortByPrice (jitaRetained allOrders)).take
            (top5Count (jitaRetained allOrders).length)).foldl
          (fun sum order => sum + order.price) 0) /
        ((((sortByPrice (jitaRetained allOrders)).take
            (top5Count (jitaRetained allOrders).length)).length : ℚ))))

end ApiJs

namespace MarketAPI

/-- `estimateItemPrice` (`src/js/market-api.js` lines 271-363) selects a
price band from substrings of the lower-cased item name; each branch of the
source returns `base + Math.random() * width`.  `estimateBandLower` is that
branch chain over the already lower-cased name, returning the
`(base, width)` pair. -/
def estimateBandLower (name : List Char) : ℚ × ℚ :=
  bif Js.jsIncludes name "titan".data then (60000000000, 40000000000)
  else bif Js.jsIncludes name "supercarrier".data then (15000000000, 10000000000)
  else bif Js.jsIncludes name "dreadnought".data then (1500000000, 1000000000)
  else bif Js.jsIncludes name "carrier".data then (1000000000, 500000000)
  else bif Js.jsIncludes name "battleship".data then (150000000, 200000000)
  else bif Js.jsIncludes name "cruiser".data then (30000000, 50000000)
  else bif Js.jsIncludes name "battlecruiser".data then (50000000, 100000000)
  else bif Js.jsIncludes name "frigate".data then (1000000, 5000000)
  else bif Js.jsIncludes name "destroyer".data then (2000000, 8000000)
  else bif Js.jsIncludes name "implant".data || Js.jsIncludes name "eifyr".data
      || Js.jsIncludes name "hardwiring".data then
    bif Js.jsIncludes name "rogue".data || Js.jsIncludes name "ws-".data
        || Js.jsIncludes name "speed".data then (50000000, 200000000)
    else bif Js.jsIncludes name "squire".data || Js.jsIncludes name "aiming".data
        || Js.jsIncludes name "tracking".data then (30000000, 100000000)
    else bif Js.jsIncludes name "grade".data || Js.jsIncludes name "low-grade".data
        || Js.jsIncludes name "mid-grade".data || Js.jsIncludes name "high-grade".data then
      (100000000, 500000000)
    else (10000000, 100000000)
  else bif Js.jsIncludes name "hardener".data || Js.jsIncludes name "armor".data
      || Js.jsIncludes name "shield".data then
    bif Js.jsIncludes name "experimental".data || Js.jsIncludes name "enduring".data then
      (1000000, 5000000)
    else bif Js.jsIncludes name "t2".data || Js.jsIncludes name "ii".data then (500000, 2000000)
    else (50000, 200000)
  else bif Js.jsIncludes name "gun".data || Js.jsIncludes name "turret".data
      || Js.jsIncludes name "launcher".data then
    bif Js.jsIncludes name "t2".data || Js.jsIncludes name "ii".data then (1000000, 5000000)
    else (100000, 500000)
  else bif Js.jsIncludes name "plate".data || Js.jsIncludes name "extender".data then
    (100000, 400000)
  else bif Js.jsIncludes name "battery".data || Js.jsIncludes name "capacitor".data then
    (200000, 800000)
  else bif Js.jsIncludes name "repair".data || Js.jsIncludes name "booster".data then
    (300000, 1200000)
  else bif Js.jsIncludes name "blaster".data || Js.jsIncludes name "cannon".data
      || Js.jsIncludes name "beam".data then (150000, 600000)
  else bif Js.jsIncludes name "ammunition".data || Js.jsIncludes name "charge".data then
    (10, 1000)
  else bif Js.jsIncludes name "crystal".data || Js.jsIncludes name "lens".data then (1000, 10000)
  else bif Js.jsIncludes name "ore".data || Js.jsIncludes name "mineral".data then (100, 5000)
  else bif Js.jsIncludes name "blueprint".data then (5000000, 50000000)
  else bif Js.jsIncludes name "datacores".data || Js.jsIncludes name "datacore".data then
    (50000, 500000)
  else bif Js.jsIncludes name "booster".data && !Js.jsIncludes name "repair".data
      && !Js.jsIncludes name "shield".data then (1000000, 10000000)
  else bif Js.jsIncludes name "warp".data && Js.jsIncludes name "drive".data then
    (25000000, 75000000)
  else (100000, 500000)

/-- The band of an item name: `const name = itemName.toLowerCase()` then the
branch chain. -/
def estimateBand (itemName : List Char) : ℚ × ℚ :=
  estimateBandLower (Js.toLowerL itemName)

/-- The band base selected for an item name. -/
def estimateBase (itemName : List Char) : ℚ := (estimateBand itemName).1

/-- The band width selected for an item name. -/
def estimateWidth (itemName : List Char) : ℚ := (estimateBand itemName).2

/-- `estimateItemPrice(itemName)` with the `Math.random()` draw `r` made an
explicit input: the selected branch returns `base + r * width`. -/
def estimateItemPrice (itemName : List Char) (r : ℚ) : ℚ :=
  estimateBase itemName + r * estimateWidth itemName

/-- The network world `fetch` talks to: the Fuzzwork name→id lookup and the
ESI order-book query (`.error` = network/HTTP failure), plus the
`Math.random()` draw used by the estimate fallback. -/
structure MarketEnv where
  typeIdFetch : List Char → Except Unit (Option ℕ)
  ordersFetch : ℕ → Except Unit (List Order)
  rand : ℚ

/-- Module-level mutable state of the `MarketAPI` IIFE. -/
structure MarketState where
  priceCache : List (List Char × ℚ)
  typeIdCache : List (List Char × Option ℕ)
  cacheTimestamp : Option ℚ
  lastApiCall : ℚ

/-- JS-object read `cache[key]` (`none` = property absent). -/
def assocGet {β : Type} (cache : List (List Char × β)) (k : List Char) : Option β :=
  match cache with
  | [] => none
  | (k', v) :: t => if k' = k then some v else assocGet t k

/-- JS-object write `cache[key] = v`. -/
def assocSet {β : Type} (cache : List (List Char × β)) (k : List Char) (v : β) :
    List (List Char × β) :=
  match cache with
  | [] => [(k, v)]
  | (k', v') :: t => if k' = k then (k, v) :: t else (k', v') :: assocSet t k v

/-- `CACHE_EXPIRY_MINUTES = 60`. -/
def CACHE_EXPIRY_MINUTES : ℚ := 60

/-- `shouldRefreshCache()`. -/
def shouldRefreshCache (now : ℚ) (st : MarketState) : Bool :=
  match st.cacheTimestamp with
  | none => true
  | some t => (now - t) / (1000 * 60) > CACHE_EXPIRY_MINUTES

/-- `refreshCache()` only resets the timestamp; `getItemPrice` begins with
`if (shouldRefreshCache()) await refreshCache()`. -/
def applyRefresh (now : ℚ) (st : MarketState) : MarketState :=
  if shouldRefreshCache now st then { st with cacheTimestamp := some now } else st

/-- `itemName.toLowerCase().trim()` — the cache normalization. -/
def normalizeName (itemName : List Char) : List Char := Js.trimL (Js.toLowerL itemName)

/-- The offline fallback table inside `findTypeIdByName`. -/
def fallbackItems : List (List Char × ℕ) :=
  [("rifter".data, 587), ("merlin".data, 603), ("punisher".data, 625),
   ("tristan".data, 582), ("venture".data, 32880), ("damage control i".data, 519),
   ("small armor repairer i".data, 518), ("small shield booster i".data, 519),
   ("plex".data, 29668), ("skill injector".data, 40519), ("skill extractor".data, 40520)]

/-- A stateful call result carrying the number of outbound `fetch` calls it
performed. -/
structure FetchOut (α : Type) where
  val : α
  st : MarketState
  fetches : ℕ

/-- The truthiness test `if (typeIdCache[normalizedName])` — a cached
`null` (or 0) is falsy and does not count as a hit. -/
def typeIdCacheTruthy (st : MarketState) (normalizedName : List Char) : Bool :=
  match assocGet st.typeIdCache normalizedName with
  | some (some id) => decide (id ≠ 0)
  | _ => false

/-- The type id the Fuzzwork fetch yields: the parsed `typeID` on success
(array/object response shapes abstracted into the oracle), else the offline
`fallbackItems[normalizedName] || null`. -/
def fuzzworkTypeId (env : MarketEnv) (itemName : List Char) : Option ℕ :=
  match env.typeIdFetch itemName with
  | .ok typeId => typeId
  | .error _ =>
    match assocGet fallbackItems (normalizeName itemName) with
    | some id => if id = 0 then none else some id
    | none => none

/-- `findTypeIdByName`: normalized cache check, rate-limit gate
(`lastApiCall` update), Fuzzwork fetch with offline fallback; the result —
even `null` — is cached. -/
def findTypeIdByName (env : MarketEnv) (now : ℚ) (itemName : List Char)
    (st : MarketState) : FetchOut (Option ℕ) :=
  if typeIdCacheTruthy st (normalizeName itemName) then
    ⟨(assocGet st.typeIdCache (normalizeName itemName)).getD none, st, 0⟩
  else
    ⟨fuzzworkTypeId env itemName,
      { st with
          lastApiCall := now
          typeIdCache := assocSet st.typeIdCache (normalizeName itemName)
            (fuzzworkTypeId env itemName) },
      1⟩

/-- `Math.min(...sellOrders.map(o => o.price))` over a non-empty list. -/
def minPrice : List Order → ℚ
  | [] => 0
  | o :: t => t.foldl (fun m x => min m x.price) o.price

/-- `fetchESIPrice`: resolve the type id (`!typeId` throws), fetch the
hub's sell orders, and return the lowest sell price; every `throw` is an
`.error`. -/
def fetchESIPrice (env : MarketEnv) (now : ℚ) (itemName : List Char)
    (st : MarketState) : FetchOut (Except Unit ℚ) :=
  match (findTypeIdByName env now itemName st).val with
  | none =>
    ⟨.error (), (findTypeIdByName env now itemName st).st,
      (findTypeIdByName env now itemName st).fetches⟩
  | some id =>
    if id = 0 then
      ⟨.error (), (findTypeIdByName env now itemName st).st,
        (findTypeIdByName env now itemName st).fetches⟩
    else
      match env.ordersFetch id with
      | .error _ =>
        ⟨.error (), (findTypeIdByName env now itemName st).st,
          (findTypeIdByName env now itemName st).fetches + 1⟩
      | .ok orders =>
        if orders.isEmpty then
          ⟨.error (), (findTypeIdByName env now itemName st).st,
            (findTypeIdByName env now itemName st).fetches + 1⟩
        else if (orders.filter (fun order => order.is_buy_order = false)).isEmpty then
          ⟨.error (), (findTypeIdByName env now itemName st).st,
            (findTypeIdByName env now itemName st).fetches + 1⟩
        else
          ⟨.ok (minPrice (orders.filter (fun order => order.is_buy_order = false))),
            (findTypeIdByName env now itemName st).st,
            (findTypeIdByName env now itemName st).fetches + 1⟩

/-- `fetchItemPrice`: the ESI price if positive, else the heuristic
estimate — both on the throwing and on the non-positive path, so it never
throws. -/
def fetchItemPrice (env : MarketEnv) (now : ℚ) (itemName : List Char)
    (st : MarketState) : FetchOut ℚ :=
  match (fetchESIPrice env now itemName st).val with
  | .ok price =>
    if 0 < price then
      ⟨price, (fetchESIPrice env now itemName st).st,
        (fetchESIPrice env now itemName st).fetches⟩
    else
      ⟨estimateItemPrice itemName env.rand, (fetchESIPrice env now itemName st).st,
        (fetchESIPrice env now itemName st).fetches⟩
  | .error _ =>
    ⟨estimateItemPrice itemName env.rand, (fetchESIPrice env now itemName st).st,
      (fetchESIPrice env now itemName st).fetches⟩

/-- Result of one `getItemPrice` call: the price, the new module state, the
outbound `fetch` count, and the number of network resolution attempts
(`fetchItemPrice` invocations). -/
structure PriceOut where
  val : ℚ
  st : MarketState
  fetches : ℕ
  lookups : ℕ

/-- The truthiness test `if (priceCache[normalizedName])` — a cached `0`
is falsy. -/
def priceCacheTruthy (st : MarketState) (normalizedName : List Char) : Bool :=
  match assocGet st.priceCache normalizedName with
  | some p => decide (p ≠ 0)
  | none => false

/-- `getItemPrice` (`src/js/market-api.js` lines 29-57): refresh gate,
normalized price-cache check, else one network resolution whose truthy
result is cached. -/
def getItemPrice (env : MarketEnv) (now : ℚ) (itemName : List Char)
    (st : MarketState) : PriceOut :=
  if priceCacheTruthy (applyRefresh now st) (normalizeName itemName) then
    ⟨(assocGet (applyRefresh now st).priceCache (normalizeName itemName)).getD 0,
      applyRefresh now st, 0, 0⟩
  else if (fetchItemPrice env now itemName (applyRefresh now st)).val ≠ 0 then
    ⟨(fetchItemPrice env now itemName (applyRefresh now st)).val,
      { (fetchItemPrice env now itemName (applyRefresh now st)).st with
          priceCache :=
            assocSet (fetchItemPrice env now itemName (applyRefresh now st)).st.priceCache
              (normalizeName itemName)
              (fetchItemPrice env now itemName (applyRefresh now st)).val },
      (fetchItemPrice env now itemName (applyRefresh now st)).fetches, 1⟩
  else
    ⟨(fetchItemPrice env now itemName (applyRefresh now st)).val,
      (fetchItemPrice env now itemName (applyRefresh now st)).st,
      (fetchItemPrice env now itemName (applyRefresh now st)).fetches, 1⟩

end MarketAPI

/-- Income classification as the specification words it: mission/agent/
bounty/reward descriptions are income; else purchased/buy/fee/tax are
expenses; default income (case-insensitive substring matches). -/
def specIsIncome (description : List Char) : Bool :=
  let d := Js.toLowerL description
  if Js.jsIncludes d "mission".data || Js.jsIncludes d "agent".data
      || Js.jsIncludes d "bounty".data || Js.jsIncludes d "reward".data then true
  else if Js.jsIncludes d "purchased".data || Js.jsIncludes d "buy".data
      || Js.jsIncludes d "fee".data || Js.jsIncludes d "tax".data then false
  else true

section DemoInputs

/-- A sell order sitting at Jita 4-4 with one unit remaining. -/
def mkJitaOrder (p : ℚ) : Order := ⟨p, 1, 60003760, false⟩

/-- Twenty Jita sell orders with strictly increasing prices 1..20. -/
def demoOrders20 : List Order := (List.range 20).map (fun i => mkJitaOrder ((i : ℚ) + 1))

/-- A resting mission used by the session-machine witnesses. -/
def demoMission : MissionTracker.Mission :=
  { id := "mission-1".data
    startMs := 0
    notes := []
    income := ⟨0, 0, 0, 0⟩
    expenses := ⟨0, 0, 0⟩
    totalTimeMinutes := 0
    iskPerHour := 0 }

/-- A tracker state with `demoMission` active. -/
def demoActiveState : MissionTracker.TrackerState :=
  { activeMission := some demoMission
    stored := some demoMission
    selectedTransactions := []
    inventoryItems := [⟨some 250⟩]
    timerRunning := true }

/-- A tracker state with no active mission. -/
def demoIdleState : MissionTracker.TrackerState :=
  { activeMission := none
    stored := none
    selectedTransactions := []
    inventoryItems := []
    timerRunning := false }

/-- Completion-form inputs used by the witnesses. -/
def demoInputs : MissionTracker.CompletionInputs :=
  { ammoStr := "100".data, repairsStr := "".data, otherStr := "7".data, finalNotes := "done".data }

/-- A market environment whose network always fails and whose random draw
is 0. -/
def demoEnv : MarketAPI.MarketEnv :=
  { typeIdFetch := fun _ => .error ()
    ordersFetch := fun _ => .error ()
    rand := 0 }

/-- The pristine market-module state. -/
def demoMarketState : MarketAPI.MarketState :=
  { priceCache := [], typeIdCache := [], cacheTimestamp := none, lastApiCall := 0 }

/-- Mission-start data used by the session witnesses. -/
def demoMissionData : MissionTracker.MissionData :=
  { idSeed := "2025-07-13-1".data, startMs := 0, notes := [] }

/-- The fitting text of the specification's worked example. -/
def demoFit : List Char :=
  "[Rifter, Fit]\nGyrostabilizer II\nGyrostabilizer II\n125mm Gatling AutoCannon II x2".data

/-- A fitting whose hull name also appears as module lines in the body. -/
def demoHullFit : List Char := "[Rifter, F]\nRifter\nRifter x3".data

/-- A matcher standing for a line grammar that always matches a bounty
line, used by the transaction-sign witness. -/
def demoMatcher : List Char → Option TransactionParser.Fields :=
  fun _ => some ⟨"2025.07.13".data, "10,000.00".data, "CONCORD".data, "Bounty Prize".data⟩

end DemoInputs

/-! ### Shared lemmas -/

theorem filter_comma_map_dot (l : List Char) :
    (l.map (fun c => if c == ',' then '.' else c)).filter (fun c => !(c == ',')) =
      l.map (fun c => if c == ',' then '.' else c) := by
  apply List.filter_eq_self.mpr
  intro a ha
  simp only [List.mem_map] at ha
  obtain ⟨c, -, rfl⟩ := ha
  by_cases hc : c = ','
  · simp [hc]
  · simp [hc]

theorem filter_comma_of_not_contains (l : List Char) (h : l.contains ',' = false) :
    l.filter (fun c => !(c == ',')) = l := by
  apply List.filter_eq_self.mpr
  intro a ha
  simp only [List.contains_eq_any_beq, List.any_eq_false, Bool.not_eq_true] at h
  simpa using fun hh => by simpa [hh] using h a ha

theorem contains_filter_false {p : Char → Bool} (l : List Char) (h : l.contains ',' = false) :
    (l.filter p).contains ',' = false := by
  simp only [List.contains_eq_any_beq, List.any_eq_false, Bool.not_eq_true] at h ⊢
  exact fun a ha => h a (List.mem_of_mem_filter ha)

theorem parseAmountV2_eq_spec (s : List Char) :
    TransactionParserV2.parseAmount s = specAmountRule s := by
  unfold TransactionParserV2.parseAmount specAmountRule
  by_cases hc : ((s.filter (fun c => !Js.isJsSpace c)).contains ',') = true
  · simp only [hc, if_true, filter_comma_map_dot]
  · simp only [Bool.not_eq_true] at hc
    simp only [hc, Bool.false_eq_true, if_false]
    rw [filter_comma_of_not_contains _ (contains_filter_false _ hc)]

theorem jsOrZ_some_isNone (a : Option ℤ) : (Js.jsOrZ a (some 1)).isNone = false := by
  unfold Js.jsOrZ
  split <;> rfl

theorem columnQty_not_none (parts : List (List Char)) :
    (InventoryParser.columnQty parts).isNone = false := by
  unfold InventoryParser.columnQty
  exact jsOrZ_some_isNone _

/-! ### C1 — amount-parsing format invariance -/

/-- C1, counterexample.  The claim — every raw amount string is parsed with
the comma-aware rule, and `"1.234.567,89"` and `"1,234,567.89"` both parse
to `1234567.89` — is false on the code: the cited `parseAmount`
(`src/js/transaction-parser.js`) parses `"1.234.567,89"` to `1.234`, and
even the comma-aware newer iteration (`src/unnamed/part_001`) parses
`"1,234,567.89"` to `1.234`, because its comma branch turns every comma
into a decimal point. -/
theorem parseAmount_format_invariance_refuted :
    TransactionParser.parseAmount "1.234.567,89".data = 1.234 ∧
    TransactionParser.parseAmount "1.234.567,89".data ≠ 1234567.89 ∧
    TransactionParser.parseAmount "1.234.567,89".data ≠ specAmountRule "1.234.567,89".data ∧
    TransactionParserV2.parseAmount "1,234,567.89".data = 1.234 ∧
    TransactionParserV2.parseAmount "1,234,567.89".data ≠ 1234567.89 := by
  have h1 : TransactionParser.parseAmount "1.234.567,89".data = 1.234 := by
    with_unfolding_all rfl
  have h2 : TransactionParserV2.parseAmount "1,234,567.89".data = 1.234 := by
    with_unfolding_all rfl
  have h3 : specAmountRule "1.234.567,89".data = 1234567.89 := by
    with_unfolding_all rfl
  refine ⟨h1, ?_, ?_, h2, ?_⟩
  · rw [h1]; norm_num
  · rw [h1, h3]; norm_num
  · rw [h2]; norm_num

/-- C1, amended.  Amount parsing is not format-invariant.  The cited
`parseAmount` strips commas and whitespace and then `parseFloat`s, so the
period-decimal string `"1,234,567.89"` parses to `1234567.89` while the
comma-decimal string `"1.234.567,89"` parses to `1.234`.  The newer
iteration implements the spec's comma rule verbatim (it agrees with
`specAmountRule` on every string); under that rule `"1.234.567,89"` parses
to `1234567.89`, but `"1,234,567.89"` parses to `1.234` because every
comma becomes a decimal point. -/
theorem parseAmount_thousands_conventions :
    TransactionParser.parseAmount "1,234,567.89".data = 1234567.89 ∧
    TransactionParser.parseAmount "1.234.567,89".data = 1.234 ∧
    (∀ s, TransactionParserV2.parseAmount s = specAmountRule s) ∧
    TransactionParserV2.parseAmount "1.234.567,89".data = 1234567.89 ∧
    TransactionParserV2.parseAmount "1,234,567.89".data = 1.234 := by
  refine ⟨?_, ?_, parseAmountV2_eq_spec, ?_, ?_⟩ <;> with_unfolding_all rfl

/-! ### C9 — inventory quantity parsing -/

/-- C9.  The quantity of every parsed inventory line comes exclusively from
the second column via `parseInt(parts[1].replace(/,/g, '')) || 1` — the
parsed integer when it is non-zero, the default `1` otherwise —
because `|| 1` leaves `isNaN(quantity)` unsatisfiable and the alternate
`"Name xN"` re-parse can never run.  In particular the line
`"Rifter x5\tStat"` (non-numeric quantity column) yields quantity 1 under
the unsplit name `"Rifter x5"`, not the claimed quantity 5. -/
theorem inventory_quantity_ignores_xN :
    (∀ line, (InventoryParser.parseLine line).map (fun item => item.quantity) =
        (InventoryParser.parseLine line).map
          (fun _ => InventoryParser.columnQty (Js.splitOnChar '\t' line))) ∧
    (∀ parts, InventoryParser.columnQty parts = some 1 ∨
        InventoryParser.columnQty parts =
          Js.parseIntJs ((parts.getD 1 []).filter (fun c => !(c == ',')))) ∧
    (InventoryParser.parseLine "Rifter x5\tStat".data).map
        (fun item => (item.name, item.quantity)) = some ("Rifter x5".data, some 1) := by
  refine ⟨?_, ?_, by decide⟩
  · intro line
    simp only [InventoryParser.parseLine, columnQty_not_none, Bool.false_and,
      Bool.false_eq_true, if_false]
    by_cases h : (Js.splitOnChar '\t' line).length < 2
    · simp [h]
    · simp [h]
  · intro parts
    unfold InventoryParser.columnQty Js.jsOrZ
    split
    · left; rfl
    · left; rfl
    · rename_i x n h
      right; rw [h]
theorem mapGet_mapSet_self (k : List Char) (v : ℕ) (m : Parser.JMap) :
    Parser.mapGet k (Parser.mapSet k v m) = some v := by
  induction m with
  | nil => simp [Parser.mapSet, Parser.mapGet]
  | cons e t ih =>
    obtain ⟨k', v'⟩ := e
    by_cases h : k' = k
    · simp [Parser.mapSet, Parser.mapGet, h]
    · simp [Parser.mapSet, Parser.mapGet, h, ih]

theorem mapGet_mapSet_ne {n k : List Char} (h : n ≠ k) (v : ℕ) (m : Parser.JMap) :
    Parser.mapGet n (Parser.mapSet k v m) = Parser.mapGet n m := by
  induction m with
  | nil => simp [Parser.mapSet, Parser.mapGet, Ne.symm h]
  | cons e t ih =>
    obtain ⟨k', v'⟩ := e
    by_cases hk : k' = k
    · subst hk
      simp [Parser.mapSet, Parser.mapGet, Ne.symm h]
    · simp [Parser.mapSet, Parser.mapGet, hk, ih]

theorem mapGet_foldl_entries (n : List Char) :
    ∀ (es : List (List Char × ℕ)) (m : Parser.JMap),
      Parser.mapGet n (es.foldl
          (fun m e => if e.1.isEmpty then m
            else Parser.mapSet e.1 ((Parser.mapGet e.1 m).getD 0 + e.2) m) m) =
        if (es.filter (fun e => !e.1.isEmpty)).any (fun e => e.1 == n) then
          some ((Parser.mapGet n m).getD 0 +
            (((es.filter (fun e => !e.1.isEmpty)).filter (fun e => e.1 == n)).map
                (fun e => e.2)).sum)
        else Parser.mapGet n m := by
  intro es
  induction es with
  | nil => intro m; simp
  | cons e t ih =>
    intro m
    obtain ⟨nm, q⟩ := e
    simp only [List.foldl_cons]
    by_cases hemp : nm.isEmpty
    · rw [if_pos hemp, ih m,
        show List.filter (fun e => !e.1.isEmpty) ((nm, q) :: t) =
            List.filter (fun e => !e.1.isEmpty) t from by simp [hemp]]
    · rw [if_neg hemp, ih]
      have hkeep : List.filter (fun e => !e.1.isEmpty) ((nm, q) :: t) =
          (nm, q) :: List.filter (fun e => !e.1.isEmpty) t := by simp [hemp]
      rw [hkeep]
      by_cases hn : nm = n
      · subst hn
        rw [mapGet_mapSet_self]
        simp only [List.any_cons, beq_self_eq_true, Bool.true_or, if_true, List.filter_cons,
          List.map_cons, List.sum_cons, Option.getD_some]
        by_cases hr : ((t.filter (fun e => !e.1.isEmpty)).any (fun e => e.1 == nm)) = true
        · simp [hr, add_assoc]
        · have hrf : ((t.filter (fun e => !e.1.isEmpty)).any (fun e => e.1 == nm)) = false :=
            Bool.not_eq_true _ ▸ hr
          have hnil : ((t.filter (fun e => !e.1.isEmpty)).filter (fun e => e.1 == nm)) = [] := by
            rw [List.filter_eq_nil_iff]
            intro a ha
            simpa using List.any_eq_false.mp hrf a ha
          simp [hr, hnil]
      · rw [mapGet_mapSet_ne (Ne.symm hn)]
        have hne : (nm == n) = false := by simpa using hn
        simp only [List.any_cons, hne, Bool.false_or, List.filter_cons, hne, if_false]
        simp

theorem foldl_accLine_eq_entries (ls : List (List Char)) (m : Parser.JMap) :
    ls.foldl Parser.accLine m =
      (ls.map Parser.parseItemLine).foldl
        (fun m e => if e.1.isEmpty then m
          else Parser.mapSet e.1 ((Parser.mapGet e.1 m).getD 0 + e.2) m) m := by
  rw [List.foldl_map]
  rfl

/-! ### C7 — fitting parser accumulation -/

/-- C7.  For every fitting text and every name other than the hull, the
items map binds the name to the sum of the parsed quantities (with `xN`
suffixes honoured) of the body lines bearing that name — absent when no
such line exists — and the specification's worked example parses to hull
`Rifter` with quantities 1/2/2. -/
theorem parseFitting_accumulates_quantities :
    (∀ text n, n ≠ (Parser.parseFitting text).shipType →
        Parser.mapGet n (Parser.parseFitting text).items = Parser.specModuleQty text n) ∧
    ((Parser.parseFitting demoFit).shipType = "Rifter".data ∧
      Parser.mapGet "Rifter".data (Parser.parseFitting demoFit).items = some 1 ∧
      Parser.mapGet "Gyrostabilizer II".data (Parser.parseFitting demoFit).items = some 2 ∧
      Parser.mapGet "125mm Gatling AutoCannon II".data (Parser.parseFitting demoFit).items
        = some 2) := by
  constructor
  · intro text n hn
    unfold Parser.parseFitting at hn ⊢
    by_cases h0 : text.isEmpty
    · rw [if_pos h0] at hn ⊢
      have ht : text = [] := by
        cases text with
        | nil => rfl
        | cons a t => simp at h0
      subst ht
      have hb : Parser.bodyEntries [] = [] := by decide
      simp [Parser.specModuleQty, hb, Parser.mapGet]
    · rw [if_neg h0] at hn ⊢
      by_cases h1 : (Parser.fitLines text).isEmpty
      · rw [if_pos h1] at hn ⊢
        have hfl : Parser.fitLines text = [] := by
          cases hx : Parser.fitLines text with
          | nil => rfl
          | cons a t => rw [hx] at h1; simp at h1
        simp [Parser.specModuleQty, Parser.bodyEntries, hfl, Parser.mapGet]
      · rw [if_neg h1] at hn ⊢
        by_cases hs : (Parser.extractShipType ((Parser.fitLines text).headD [])).isEmpty
        · rw [if_pos hs] at hn ⊢
          rw [foldl_accLine_eq_entries, mapGet_foldl_entries]
          unfold Parser.specModuleQty Parser.bodyEntries
          simp [Parser.mapGet]
        · rw [if_neg hs] at hn ⊢
          have hne : n ≠ Parser.extractShipType ((Parser.fitLines text).headD []) := hn
          rw [show (Parser.FittingResult.mk
              (Parser.extractShipType ((Parser.fitLines text).headD []))
              (Parser.mapSet (Parser.extractShipType ((Parser.fitLines text).headD [])) 1
                (((Parser.fitLines text).drop 1).foldl Parser.accLine []))).items =
              Parser.mapSet (Parser.extractShipType ((Parser.fitLines text).headD [])) 1
                (((Parser.fitLines text).drop 1).foldl Parser.accLine []) from rfl]
          rw [mapGet_mapSet_ne hne, foldl_accLine_eq_entries, mapGet_foldl_entries]
          unfold Parser.specModuleQty Parser.bodyEntries
          simp [Parser.mapGet]
  · refine ⟨by decide, by decide, by decide, by decide⟩

/-- C7, witness: the general accumulation equation applied to the worked
example at the non-hull module name `Gyrostabilizer II`. -/
theorem parseFitting_accumulates_quantities_witness :
    "Gyrostabilizer II".data ≠ (Parser.parseFitting demoFit).shipType ∧
    Parser.mapGet "Gyrostabilizer II".data (Parser.parseFitting demoFit).items
      = Parser.specModuleQty demoFit "Gyrostabilizer II".data :=
  ⟨by decide, parseFitting_accumulates_quantities.1 demoFit "Gyrostabilizer II".data (by decide)⟩

/-! ### C10 — hull quantity overwrite -/

/-- C10.  Whenever the parsed hull name is non-empty the items map binds it
to exactly 1: the final hull insertion overwrites whatever quantity body
lines equal to the hull name accumulated. -/
theorem parseFitting_hull_bound_to_one :
    ∀ text, (Parser.parseFitting text).shipType ≠ [] →
      Parser.mapGet (Parser.parseFitting text).shipType (Parser.parseFitting text).items
        = some 1 := by
  intro text hs
  unfold Parser.parseFitting at hs ⊢
  by_cases h0 : text.isEmpty
  · rw [if_pos h0] at hs; exact absurd rfl hs
  · rw [if_neg h0] at hs ⊢
    by_cases h1 : (Parser.fitLines text).isEmpty
    · rw [if_pos h1] at hs; exact absurd rfl hs
    · rw [if_neg h1] at hs ⊢
      by_cases hsh : (Parser.extractShipType ((Parser.fitLines text).headD [])).isEmpty
      · rw [if_pos hsh] at hs
        exact absurd (List.isEmpty_iff.mp hsh) hs
      · rw [if_neg hsh]
        exact mapGet_mapSet_self _ _ _

/-- C10, witness: a fitting whose body repeats the hull name (once bare,
once as `x3`) still ends with the hull bound to exactly 1. -/
theorem parseFitting_hull_bound_to_one_witness :
    (Parser.parseFitting demoHullFit).shipType = "Rifter".data ∧
    Parser.mapGet (Parser.parseFitting demoHullFit).shipType
        (Parser.parseFitting demoHullFit).items = some 1 :=
  ⟨by decide, parseFitting_hull_bound_to_one demoHullFit (by decide)⟩

/-! ### C2 — 5%-cheapest-average order-book pricing -/

theorem foldl_add_price (l : List Order) (s : ℚ) :
    l.foldl (fun sum order => sum + order.price) s = s + (l.map (fun o => o.price)).sum := by
  induction l generalizing s with
  | nil => simp
  | cons o t ih => simp [ih, add_assoc]

theorem length_sortByPrice (l : List Order) : (sortByPrice l).length = l.length :=
  (List.perm_insertionSort lePrice l).length_eq

theorem top5Count_le {n : ℕ} (h : 1 ≤ n) : top5Count n ≤ n := by
  unfold top5Count
  refine max_le h (Nat.ceil_le.mpr ?_)
  nlinarith [Nat.cast_nonneg (α := ℚ) n]

theorem sortByPrice_sorted (l : List Order) : List.Sorted lePrice (sortByPrice l) :=
  List.sorted_insertionSort lePrice l

theorem sortByPrice_perm (l : List Order) : List.Perm (sortByPrice l) l :=
  List.perm_insertionSort lePrice l

theorem calc5_eq_spec (orders : List Order) (h : orders ≠ []) :
    MarketAPIv3.calculateTop5PercentAverage orders = specTop5 orders := by
  unfold MarketAPIv3.calculateTop5PercentAverage specTop5
  have h1 : 1 ≤ orders.length := List.length_pos.mpr h
  have hlen : (sortByPrice orders).length = orders.length := length_sortByPrice orders
  have hk : top5Count orders.length ≤ (sortByPrice orders).length := by
    rw [hlen]; exact top5Count_le h1
  rw [foldl_add_price, hlen, List.length_take, min_eq_left hk, zero_add]

theorem getPricesSingle_eq_spec (allOrders : List Order)
    (h : ApiJs.jitaRetained allOrders ≠ []) :
    ApiJs.getPricesSingle allOrders = some (specTop5 (ApiJs.jitaRetained allOrders)) := by
  unfold ApiJs.getPricesSingle
  have hall : allOrders ≠ [] := by
    intro he; exact h (by simp [ApiJs.jitaRetained, he])
  rw [if_neg (by simpa using hall), if_neg (by simpa using h)]
  unfold specTop5
  have h1 : 1 ≤ (ApiJs.jitaRetained allOrders).length := List.length_pos.mpr h
  have hlen : (sortByPrice (ApiJs.jitaRetained allOrders)).length
      = (ApiJs.jitaRetained allOrders).length := length_sortByPrice _
  have hk : top5Count (ApiJs.jitaRetained allOrders).length
      ≤ (sortByPrice (ApiJs.jitaRetained allOrders)).length := by
    rw [hlen]; exact top5Count_le h1
  rw [foldl_add_price, List.length_take, min_eq_left hk, zero_add]

/-- C2.  The order-book price is the arithmetic mean, rounded to 2
decimals, of the prices of the cheapest `max(1, ceil(count * 0.05))`
candidates of the ascending stable sort — both in `getPrices`
(`src/js/api.js`, on the Jita-retained orders) and in
`calculateTop5PercentAverage` (`src/unnamed/part_003`); the sort is an
ascending-by-price permutation of the candidates; and on 20 sell orders
with prices 1..20 the result is the single cheapest order's price, 1. -/
theorem orderBook_top5_cheapest_average :
    (∀ orders : List Order,
        List.Sorted lePrice (sortByPrice orders) ∧ List.Perm (sortByPrice orders) orders) ∧
    (∀ orders, orders ≠ [] →
        MarketAPIv3.calculateTop5PercentAverage orders = specTop5 orders) ∧
    (∀ allOrders, ApiJs.jitaRetained allOrders ≠ [] →
        ApiJs.getPricesSingle allOrders = some (specTop5 (ApiJs.jitaRetained allOrders))) ∧
    top5Count 20 = 1 ∧
    ApiJs.getPricesSingle demoOrders20 = some 1 ∧
    MarketAPIv3.calculateTop5PercentAverage demoOrders20 = 1 := by
  refine ⟨fun orders => ⟨sortByPrice_sorted orders, sortByPrice_perm orders⟩,
    calc5_eq_spec, getPricesSingle_eq_spec, ?_, ?_, ?_⟩ <;> with_unfolding_all rfl

/-- C2, witness: both pricing entry points applied to the 20-order
instance, with the non-emptiness hypotheses discharged there. -/
theorem orderBook_top5_cheapest_average_witness :
    demoOrders20 ≠ [] ∧ ApiJs.jitaRetained demoOrders20 ≠ [] ∧
    MarketAPIv3.calculateTop5PercentAverage demoOrders20 = specTop5 demoOrders20 ∧
    ApiJs.getPricesSingle demoOrders20 = some (specTop5 (ApiJs.jitaRetained demoOrders20)) :=
  ⟨by decide, by decide,
    orderBook_top5_cheapest_average.2.1 demoOrders20 (by decide),
    orderBook_top5_cheapest_average.2.2.1 demoOrders20 (by decide)⟩

/-! ### C3 — session state machine blocks illegal transitions -/

/-- C3.  `start` while a session is active fails with `AlreadyActive`, and
`complete` with no active session fails with `NoActiveSession`; in both
cases the entire tracker state — in-memory active mission and the durable
slot included — is returned unchanged. -/
theorem session_illegal_transitions_blocked :
    (∀ d st, st.activeMission.isSome →
        MissionTracker.startMission d st
          = (.error .alreadyActive, st)) ∧
    (∀ inp now st, st.activeMission = none →
        MissionTracker.completeMission inp now st
          = (.error .noActiveSession, st)) := by
  constructor
  · intro d st h
    unfold MissionTracker.startMission
    cases hm : st.activeMission with
    | none => rw [hm] at h; simp at h
    | some m => rfl
  · intro inp now st h
    unfold MissionTracker.completeMission
    rw [h]

/-- C3, witness: a double start on an active demo state and a complete on
the idle demo state, each blocked with the matching error and an unchanged
state. -/
theorem session_illegal_transitions_blocked_witness :
    demoActiveState.activeMission.isSome ∧ demoIdleState.activeMission = none ∧
    MissionTracker.startMission demoMissionData demoActiveState
      = (.error .alreadyActive, demoActiveState) ∧
    MissionTracker.completeMission demoInputs 5000 demoIdleState
      = (.error .noActiveSession, demoIdleState) :=
  ⟨rfl, rfl,
    session_illegal_transitions_blocked.1 demoMissionData demoActiveState rfl,
    session_illegal_transitions_blocked.2 demoInputs 5000 demoIdleState rfl⟩

/-! ### C4 — completion time clamp and ISK/hour -/

/-- C4.  Whenever `complete` succeeds, the finalized record satisfies
`totalTimeMinutes = max(durationMinutes, 1)` (hence at least 1 even within
the starting second) and `iskPerHour = (totalIncome - totalExpenses) /
totalTimeMinutes * 60`. -/
theorem completeMission_time_clamp_and_rate :
    ∀ inp now st m, st.activeMission = some m →
      ∃ rec, (MissionTracker.completeMission inp now st).1 = .ok rec ∧
        rec.totalTimeMinutes = max ((now - m.startMs) / 60000) 1 ∧
        1 ≤ rec.totalTimeMinutes ∧
        rec.iskPerHour =
          (MissionTracker.totalIncome rec - MissionTracker.totalExpenses rec)
            / rec.totalTimeMinutes * 60 := by
  intro inp now st m h
  unfold MissionTracker.completeMission
  rw [h]
  refine ⟨_, rfl, rfl, le_max_right _ _, ?_⟩
  simp [MissionTracker.totalIncome, MissionTracker.totalExpenses]

/-- C4, witness: completion of the active demo session two minutes in. -/
theorem completeMission_time_clamp_and_rate_witness :
    demoActiveState.activeMission = some demoMission ∧
    ∃ rec, (MissionTracker.completeMission demoInputs 120000 demoActiveState).1 = .ok rec ∧
      rec.totalTimeMinutes = max ((120000 - demoMission.startMs) / 60000) 1 ∧
      1 ≤ rec.totalTimeMinutes ∧
      rec.iskPerHour =
        (MissionTracker.totalIncome rec - MissionTracker.totalExpenses rec)
          / rec.totalTimeMinutes * 60 :=
  ⟨rfl, completeMission_time_clamp_and_rate demoInputs 120000 demoActiveState demoMission rfl⟩

/-! ### C8 — transaction sign matches keyword classification -/

/-- C8.  `determineIsIncome` is exactly the specification's keyword
classification, and every transaction the parser emits carries a
non-negative amount when its description classifies as income and a
non-positive amount when it classifies as expense (the magnitude is the
parsed absolute amount, signed by the classification). -/
theorem transaction_sign_matches_classification :
    (∀ d ft, TransactionParser.determineIsIncome d ft = specIsIncome d) ∧
    (∀ matcher rid today text tx,
        tx ∈ TransactionParser.parse matcher rid today text →
          (specIsIncome tx.description = true → 0 ≤ tx.amount) ∧
          (specIsIncome tx.description = false → tx.amount ≤ 0)) := by
  constructor
  · intro d ft; rfl
  · intro matcher rid today text tx htx
    unfold TransactionParser.parse at htx
    by_cases h0 : text.isEmpty
    · rw [if_pos h0] at htx; simp at htx
    · rw [if_neg h0] at htx
      simp only [List.mem_filterMap] at htx
      obtain ⟨line, -, hline⟩ := htx
      rw [Option.map_eq_some'] at hline
      obtain ⟨f, -, rfl⟩ := hline
      have hdesc : (TransactionParser.mkTransaction rid today f).description
          = Js.trimL f.description := rfl
      have hamt : (TransactionParser.mkTransaction rid today f).amount =
          if specIsIncome (Js.trimL f.description) then
            |TransactionParser.parseAmount f.amountStr|
          else -|TransactionParser.parseAmount f.amountStr| := rfl
      constructor
      · intro hinc
        rw [hdesc] at hinc
        rw [hamt, if_pos hinc]
        exact abs_nonneg _
      · intro hexp
        rw [hdesc] at hexp
        rw [hamt, if_neg (by simp [hexp])]
        exact neg_nonpos.mpr (abs_nonneg _)

/-- C8, witness: a bounty line emitted through a concrete matcher is
classified as income and carries a non-negative amount. -/
theorem transaction_sign_matches_classification_witness :
    (TransactionParser.mkTransaction "r".data "2025-01-01".data
        ⟨"2025.07.13".data, "10,000.00".data, "CONCORD".data, "Bounty Prize".data⟩)
      ∈ TransactionParser.parse demoMatcher "r".data "2025-01-01".data "line".data ∧
    0 ≤ (TransactionParser.mkTransaction "r".data "2025-01-01".data
        ⟨"2025.07.13".data, "10,000.00".data, "CONCORD".data, "Bounty Prize".data⟩).amount := by
  have hp : TransactionParser.parse demoMatcher "r".data "2025-01-01".data "line".data
      = [TransactionParser.mkTransaction "r".data "2025-01-01".data
          ⟨"2025.07.13".data, "10,000.00".data, "CONCORD".data, "Bounty Prize".data⟩] := rfl
  have hmem := hp ▸ List.mem_singleton.mpr rfl
  exact ⟨hmem,
    (transaction_sign_matches_classification.2 demoMatcher "r".data "2025-01-01".data
        "line".data _ hmem).1 (by decide)⟩

/-! ### C5 — heuristic estimator determinism -/

theorem cond_band_pos (b : Bool) {x y : ℚ × ℚ} (hx : 0 < x.1 ∧ 0 < x.2)
    (hy : 0 < y.1 ∧ 0 < y.2) :
    0 < (cond b x y).1 ∧ 0 < (cond b x y).2 := by
  cases b <;> simpa

theorem estimateBandLower_pos (name : List Char) :
    0 < (MarketAPI.estimateBandLower name).1 ∧ 0 < (MarketAPI.estimateBandLower name).2 := by
  unfold MarketAPI.estimateBandLower
  repeat' first
    | apply cond_band_pos
    | exact ⟨by norm_num, by norm_num⟩

theorem estimateBand_pos (itemName : List Char) :
    0 < MarketAPI.estimateBase itemName ∧ 0 < MarketAPI.estimateWidth itemName :=
  estimateBandLower_pos (Js.toLowerL itemName)

/-- C5, counterexample.  The estimator is not deterministic: with the
`Math.random()` draw made explicit, two invocations on the same item name
`"titan"` — one drawing 0, one drawing 1/2 — return 60 000 000 000 and
80 000 000 000 ISK respectively. -/
theorem estimateItemPrice_two_invocations_differ :
    MarketAPI.estimateItemPrice "titan".data 0
      ≠ MarketAPI.estimateItemPrice "titan".data (1 / 2) := by
  have h1 : MarketAPI.estimateItemPrice "titan".data 0 = 60000000000 := by
    with_unfolding_all rfl
  have h2 : MarketAPI.estimateItemPrice "titan".data (1 / 2) = 80000000000 := by
    with_unfolding_all rfl
  rw [h1, h2]
  norm_num

/-- C5, amended.  Only the price band is deterministic: the band `(base,
width)` is a function of the item-name substrings alone, and for every
`Math.random()` draw `r ∈ [0, 1)` the returned price is `base + r * width`,
hence lies inside the half-open band `[base, base + width)`; the price
itself varies with the draw. -/
theorem estimateItemPrice_band_deterministic :
    ∀ itemName r, 0 ≤ r → r < 1 →
      MarketAPI.estimateItemPrice itemName r
          = MarketAPI.estimateBase itemName + r * MarketAPI.estimateWidth itemName ∧
        MarketAPI.estimateBase itemName ≤ MarketAPI.estimateItemPrice itemName r ∧
        MarketAPI.estimateItemPrice itemName r
          < MarketAPI.estimateBase itemName + MarketAPI.estimateWidth itemName := by
  intro itemName r hr hr1
  obtain ⟨hb, hw⟩ := estimateBand_pos itemName
  refine ⟨rfl, ?_, ?_⟩
  · unfold MarketAPI.estimateItemPrice
    nlinarith [mul_nonneg hr hw.le]
  · unfold MarketAPI.estimateItemPrice
    nlinarith [hw, hr1]

/-- C5, witness: the band bounds applied to `"titan"` at the draw 0. -/
theorem estimateItemPrice_band_deterministic_witness :
    (0 : ℚ) ≤ 0 ∧ (0 : ℚ) < 1 ∧
      (MarketAPI.estimateItemPrice "titan".data 0
          = MarketAPI.estimateBase "titan".data + 0 * MarketAPI.estimateWidth "titan".data ∧
        MarketAPI.estimateBase "titan".data ≤ MarketAPI.estimateItemPrice "titan".data 0 ∧
        MarketAPI.estimateItemPrice "titan".data 0
          < MarketAPI.estimateBase "titan".data + MarketAPI.estimateWidth "titan".data) :=
  ⟨le_refl 0, by norm_num,
    estimateItemPrice_band_deterministic "titan".data 0 (le_refl 0) (by norm_num)⟩
theorem assocGet_assocSet_self {β : Type} (c : List (List Char × β)) (k : List Char) (v : β) :
    MarketAPI.assocGet (MarketAPI.assocSet c k v) k = some v := by
  induction c with
  | nil => simp [MarketAPI.assocSet, MarketAPI.assocGet]
  | cons e t ih =>
    obtain ⟨k', v'⟩ := e
    by_cases h : k' = k
    · simp [MarketAPI.assocSet, MarketAPI.assocGet, h]
    · simp [MarketAPI.assocSet, MarketAPI.assocGet, h, ih]

theorem applyRefresh_priceCache (now : ℚ) (st : MarketAPI.MarketState) :
    (MarketAPI.applyRefresh now st).priceCache = st.priceCache := by
  unfold MarketAPI.applyRefresh
  split <;> rfl

theorem findTypeId_priceCache (env : MarketAPI.MarketEnv) (now : ℚ) (n : List Char)
    (st : MarketAPI.MarketState) :
    (MarketAPI.findTypeIdByName env now n st).st.priceCache = st.priceCache := by
  unfold MarketAPI.findTypeIdByName
  split <;> rfl

theorem fetchESIPrice_priceCache (env : MarketAPI.MarketEnv) (now : ℚ) (n : List Char)
    (st : MarketAPI.MarketState) :
    (MarketAPI.fetchESIPrice env now n st).st.priceCache = st.priceCache := by
  unfold MarketAPI.fetchESIPrice
  repeat' split
  all_goals simp [findTypeId_priceCache]

theorem fetchItemPrice_priceCache (env : MarketAPI.MarketEnv) (now : ℚ) (n : List Char)
    (st : MarketAPI.MarketState) :
    (MarketAPI.fetchItemPrice env now n st).st.priceCache = st.priceCache := by
  unfold MarketAPI.fetchItemPrice
  repeat' split
  all_goals simp [fetchESIPrice_priceCache]

theorem estimateItemPrice_pos (n : List Char) {r : ℚ} (hr : 0 ≤ r) :
    0 < MarketAPI.estimateItemPrice n r := by
  obtain ⟨hb, hw⟩ := estimateBand_pos n
  unfold MarketAPI.estimateItemPrice
  nlinarith [mul_nonneg hr hw.le]

theorem fetchItemPrice_pos (env : MarketAPI.MarketEnv) (now : ℚ) (n : List Char)
    (st : MarketAPI.MarketState) (hr : 0 ≤ env.rand) :
    0 < (MarketAPI.fetchItemPrice env now n st).val := by
  unfold MarketAPI.fetchItemPrice
  repeat' split
  all_goals first
    | assumption
    | exact estimateItemPrice_pos n hr

theorem priceCacheTruthy_exists {st : MarketAPI.MarketState} {nn : List Char}
    (h : MarketAPI.priceCacheTruthy st nn = true) :
    ∃ p, MarketAPI.assocGet st.priceCache nn = some p ∧ p ≠ 0 := by
  unfold MarketAPI.priceCacheTruthy at h
  split at h
  · rename_i p hp
    exact ⟨p, hp, by simpa using h⟩
  · simp at h

theorem priceCacheTruthy_intro {st : MarketAPI.MarketState} {nn : List Char} {p : ℚ}
    (hp : MarketAPI.assocGet st.priceCache nn = some p) (hne : p ≠ 0) :
    MarketAPI.priceCacheTruthy st nn = true := by
  unfold MarketAPI.priceCacheTruthy
  rw [hp]
  simpa using hne
theorem getItemPrice_hit {env : MarketAPI.MarketEnv} {now : ℚ} {itemName : List Char}
    {st : MarketAPI.MarketState} {p : ℚ}
    (hp : MarketAPI.assocGet st.priceCache (MarketAPI.normalizeName itemName) = some p)
    (hne : p ≠ 0) :
    MarketAPI.getItemPrice env now itemName st
      = ⟨p, MarketAPI.applyRefresh now st, 0, 0⟩ := by
  have hp' : MarketAPI.assocGet (MarketAPI.applyRefresh now st).priceCache
      (MarketAPI.normalizeName itemName) = some p := by
    rw [applyRefresh_priceCache]; exact hp
  unfold MarketAPI.getItemPrice
  rw [if_pos (priceCacheTruthy_intro hp' hne), hp']
  rfl

theorem getItemPrice_spec (env : MarketAPI.MarketEnv) (now : ℚ) (itemName : List Char)
    (st : MarketAPI.MarketState) (hr : 0 ≤ env.rand) :
    (MarketAPI.getItemPrice env now itemName st).val ≠ 0 ∧
    MarketAPI.assocGet (MarketAPI.getItemPrice env now itemName st).st.priceCache
        (MarketAPI.normalizeName itemName)
      = some (MarketAPI.getItemPrice env now itemName st).val ∧
    (MarketAPI.getItemPrice env now itemName st).lookups ≤ 1 := by
  by_cases hhit : MarketAPI.priceCacheTruthy (MarketAPI.applyRefresh now st)
      (MarketAPI.normalizeName itemName) = true
  · obtain ⟨p, hp, hne⟩ := priceCacheTruthy_exists hhit
    rw [applyRefresh_priceCache] at hp
    rw [getItemPrice_hit hp hne]
    refine ⟨hne, ?_, by norm_num⟩
    rw [applyRefresh_priceCache]
    exact hp
  · have hpos := fetchItemPrice_pos env now itemName (MarketAPI.applyRefresh now st) hr
    unfold MarketAPI.getItemPrice
    rw [if_neg hhit, if_pos hpos.ne']
    exact ⟨hpos.ne', assocGet_assocSet_self _ _ _, le_refl 1⟩

/-! ### C6 — price-resolver cache -/

/-- C6.  For every item name and module state, two sequential
`getItemPrice` calls for the same name (the cache key being the
lower-cased, trimmed name) within the 60-minute expiry window perform at
most one network resolution between them: the second call performs zero
resolutions and zero outbound fetches, returns the first call's value, and
is answered from the price cache, which after the first call binds the
normalized name to that value. -/
theorem priceResolver_second_call_cached :
    ∀ env itemName st now1 now2, 0 ≤ MarketAPI.MarketEnv.rand env →
      (now2 - now1) / (1000 * 60) ≤ MarketAPI.CACHE_EXPIRY_MINUTES →
      (MarketAPI.getItemPrice env now2 itemName
          (MarketAPI.getItemPrice env now1 itemName st).st).lookups = 0 ∧
      (MarketAPI.getItemPrice env now2 itemName
          (MarketAPI.getItemPrice env now1 itemName st).st).fetches = 0 ∧
      (MarketAPI.getItemPrice env now2 itemName
          (MarketAPI.getItemPrice env now1 itemName st).st).val
        = (MarketAPI.getItemPrice env now1 itemName st).val ∧
      (MarketAPI.getItemPrice env now1 itemName st).lookups +
        (MarketAPI.getItemPrice env now2 itemName
          (MarketAPI.getItemPrice env now1 itemName st).st).lookups ≤ 1 ∧
      MarketAPI.assocGet (MarketAPI.getItemPrice env now1 itemName st).st.priceCache
          (MarketAPI.normalizeName itemName)
        = some (MarketAPI.getItemPrice env now1 itemName st).val := by
  intro env itemName st now1 now2 hr hwindow
  obtain ⟨hne, hcache, hlook⟩ := getItemPrice_spec env now1 itemName st hr
  rw [getItemPrice_hit hcache hne]
  exact ⟨rfl, rfl, rfl, by simpa using hlook, hcache⟩

/-- C6, witness: two immediate calls for `"titan"` on the pristine state
against an always-failing network; the second call resolves nothing and
repeats the first call's (estimated) price. -/
theorem priceResolver_second_call_cached_witness :
    0 ≤ MarketAPI.MarketEnv.rand demoEnv ∧
    ((0 : ℚ) - 0) / (1000 * 60) ≤ MarketAPI.CACHE_EXPIRY_MINUTES ∧
    (MarketAPI.getItemPrice demoEnv 0 "titan".data
        (MarketAPI.getItemPrice demoEnv 0 "titan".data demoMarketState).st).lookups = 0 ∧
    (MarketAPI.getItemPrice demoEnv 0 "titan".data
        (MarketAPI.getItemPrice demoEnv 0 "titan".data demoMarketState).st).val
      = (MarketAPI.getItemPrice demoEnv 0 "titan".data demoMarketState).val :=
  ⟨by norm_num [demoEnv], by norm_num [MarketAPI.CACHE_EXPIRY_MINUTES],
    (priceResolver_second_call_cached demoEnv "titan".data demoMarketState 0 0
      (by norm_num [demoEnv]) (by norm_num [MarketAPI.CACHE_EXPIRY_MINUTES])).1,
    (priceResolver_second_call_cached demoEnv "titan".data demoMarketState 0 0
      (by norm_num [demoEnv]) (by norm_num [MarketAPI.CACHE_EXPIRY_MINUTES])).2.2.1⟩
